import Mathlib

/-!
Shallow embedding of the foodgram backend core (src/backend/api): the entity
store, the cart/favorite/subscription toggles, recipe validation, the
shopping-list aggregation and the short-link service, together with theorems
settling the specification claims about them.
-/

namespace Foodgram

/-- User identifiers (primary keys of CustomUser). -/
abbrev UserId := Nat

/-- Recipe identifiers (primary keys of Recipe). -/
abbrev RecipeId := Nat

/-- Ingredient identifiers (primary keys of Ingredient). -/
abbrev IngredientId := Nat

/-- Tag identifiers (primary keys of Tag). -/
abbrev TagId := Nat

/-- Short codes are strings (models.RecipeShortLink.short_code). -/
abbrev Code := String

/-- Error taxonomy of spec section 7; each constructor stands for the
rejection the views/serializers raise as ValidationError / 404. -/
inductive Err where
  | EmptyCollection
  | DuplicateEntry
  | UnknownReference (missing : List IngredientId)
  | SelfReference
  | AlreadyExists
  | NotFound
deriving DecidableEq, Repr

/-- models.Ingredient: name plus measurement unit, keyed by id. -/
structure Ingredient where
  id : IngredientId
  name : String
  measurement_unit : String
deriving DecidableEq, Repr

/-- models.IngredientInRecipe: join row (recipe, ingredient, amount). -/
structure IngredientInRecipe where
  recipe : RecipeId
  ingredient : IngredientId
  amount : Nat
deriving DecidableEq, Repr

/-- models.ShoppingCart: join row (user, recipe). -/
structure ShoppingCartEntry where
  user : UserId
  recipe : RecipeId
deriving DecidableEq, Repr

/-- models.Favorite: join row (user, recipe). -/
structure FavoriteEntry where
  user : UserId
  recipe : RecipeId
deriving DecidableEq, Repr

/-- models.Subscription: `user` is the followee, `subscriber` the follower. -/
structure Subscription where
  user : UserId
  subscriber : UserId
deriving DecidableEq, Repr

/-- models.RecipeShortLink: (recipe, short_code) row. -/
structure RecipeShortLink where
  recipe : RecipeId
  short_code : Code
deriving DecidableEq, Repr

/-- The persistent store, restricted to the tables the claims touch. -/
structure Store where
  ingredients : List Ingredient
  ingredient_lines : List IngredientInRecipe
  shopping_cart : List ShoppingCartEntry
  favorites : List FavoriteEntry
  subscriptions : List Subscription
  short_links : List RecipeShortLink
deriving DecidableEq, Repr

/-- views.py: `user.shopping_cart.filter(recipe=recipe).exists()`. -/
def inShoppingCart (s : Store) (u : UserId) (r : RecipeId) : Bool :=
  s.shopping_cart.any fun e => e.user == u && e.recipe == r

/-- views.py: `user.favorites.filter(recipe=recipe).exists()`. -/
def inFavorites (s : Store) (u : UserId) (r : RecipeId) : Bool :=
  s.favorites.any fun e => e.user == u && e.recipe == r

/-- views.py: `author.subscribers.filter(subscriber=user).exists()`. -/
def subscriptionExists (s : Store) (author u : UserId) : Bool :=
  s.subscriptions.any fun e => e.user == author && e.subscriber == u

/-- RecipeViewSet.shopping_cart, POST branch: raise if already present,
otherwise create the (user, recipe) entry.  An error leaves the store as it
was, since the raise happens before any write. -/
def shoppingCartAdd (s : Store) (u : UserId) (r : RecipeId) :
    Except Err Unit × Store :=
  if inShoppingCart s u r then (.error .AlreadyExists, s)
  else (.ok (), { s with shopping_cart := s.shopping_cart ++ [⟨u, r⟩] })

/-- RecipeViewSet.shopping_cart, DELETE branch: raise if absent, otherwise
delete the matching entries. -/
def shoppingCartRemove (s : Store) (u : UserId) (r : RecipeId) :
    Except Err Unit × Store :=
  if inShoppingCart s u r then
    (.ok (), { s with shopping_cart :=
      s.shopping_cart.filter fun e => !(e.user == u && e.recipe == r) })
  else (.error .NotFound, s)

/-- RecipeViewSet.favorite, POST branch. -/
def favoriteAdd (s : Store) (u : UserId) (r : RecipeId) :
    Except Err Unit × Store :=
  if inFavorites s u r then (.error .AlreadyExists, s)
  else (.ok (), { s with favorites := s.favorites ++ [⟨u, r⟩] })

/-- RecipeViewSet.favorite, DELETE branch. -/
def favoriteRemove (s : Store) (u : UserId) (r : RecipeId) :
    Except Err Unit × Store :=
  if inFavorites s u r then
    (.ok (), { s with favorites :=
      s.favorites.filter fun e => !(e.user == u && e.recipe == r) })
  else (.error .NotFound, s)

/-- CustomUserViewSet.subscribe, POST branch: reject self-subscription first,
then an already existing pair, otherwise create the subscription. -/
def subscribePost (s : Store) (author u : UserId) :
    Except Err Unit × Store :=
  if u == author then (.error .SelfReference, s)
  else if subscriptionExists s author u then (.error .AlreadyExists, s)
  else (.ok (), { s with subscriptions := s.subscriptions ++ [⟨author, u⟩] })

/-- No subscription row is a self-subscription. -/
def NoSelfSubscription (s : Store) : Prop :=
  ∀ e ∈ s.subscriptions, e.user ≠ e.subscriber

/-- A recipe create/update request after field deserialization: the
ingredient items as (ingredient id, amount) pairs, and the tag ids. -/
structure RecipeRequest where
  ingredients : List (IngredientId × Nat)
  tags : List TagId
deriving DecidableEq, Repr

/-- serializers.RecipeCreateSerializer.validate: the four object-level checks
in source order — empty ingredients, duplicated ingredient ids, empty tags,
duplicated tags. -/
def validate (req : RecipeRequest) : Except Err RecipeRequest :=
  if req.ingredients = [] then .error .EmptyCollection
  else if ¬ (req.ingredients.map Prod.fst).Nodup then .error .DuplicateEntry
  else if req.tags = [] then .error .EmptyCollection
  else if ¬ req.tags.Nodup then .error .DuplicateEntry
  else .ok req

/-- Modelled from the spec: the primary-key resolution performed by
`IngredientInRecipeCreateSerializer.id` (a PrimaryKeyRelatedField over the
Ingredient table) is framework code not present under src/; per the spec it
fails with UnknownReference, listing every referenced ingredient id that
does not exist in the ingredient store, before object-level validation. -/
def resolveIngredientIds (ings : List Ingredient) (req : RecipeRequest) :
    Except Err RecipeRequest :=
  let missing :=
    (req.ingredients.map Prod.fst).filter fun i => !(ings.any fun g => g.id == i)
  if missing = [] then .ok req else .error (.UnknownReference missing)

/-- Full request validation: field-level id resolution, then
RecipeCreateSerializer.validate. -/
def run_validation (ings : List Ingredient) (req : RecipeRequest) :
    Except Err RecipeRequest :=
  match resolveIngredientIds ings req with
  | .error e => .error e
  | .ok r => validate r

/-- The ingredient lines whose recipe is in the user's shopping cart:
`IngredientInRecipe.objects.filter(recipe__shopping_cart__user=user)`. -/
def cartLines (s : Store) (u : UserId) : List IngredientInRecipe :=
  s.ingredient_lines.filter fun l =>
    s.shopping_cart.any fun e => e.user == u && e.recipe == l.recipe

/-- Joined ingredient name of an id (the values key ingredient__name). -/
def ingredientName (s : Store) (i : IngredientId) : String :=
  Option.getD ((s.ingredients.find? fun g => g.id == i).map Ingredient.name) ""

/-- Joined measurement unit of an id (ingredient__measurement_unit). -/
def ingredientUnit (s : Store) (i : IngredientId) : String :=
  Option.getD ((s.ingredients.find? fun g => g.id == i).map
    Ingredient.measurement_unit) ""

/-- The cart lines annotated with (name, measurement unit, amount). -/
def cartKeyedLines (s : Store) (u : UserId) : List (String × String × Nat) :=
  (cartLines s u).map fun l =>
    (ingredientName s l.ingredient, ingredientUnit s l.ingredient, l.amount)

/-- Grouping key (ingredient name, measurement unit) of an annotated line. -/
def lineKey (x : String × String × Nat) : String × String := (x.1, x.2.1)

/-- Distinct grouping keys in order of first appearance: the GROUP BY of
`.values('ingredient__name', 'ingredient__measurement_unit')`. -/
def lineKeys : List (String × String × Nat) → List (String × String)
  | [] => []
  | x :: xs => lineKey x :: (lineKeys xs).filter fun k => decide (k ≠ lineKey x)

/-- Sum of the amounts of the lines carrying a key: `Sum('amount')`. -/
def groupTotal (ls : List (String × String × Nat)) (k : String × String) : Nat :=
  ((ls.filter fun x => decide (lineKey x = k)).map fun x => x.2.2).sum

/-- The aggregated shopping list: one (name, unit, total) per distinct
(name, unit) key among the user's cart lines. -/
def shoppingListGroups (s : Store) (u : UserId) : List (String × String × Nat) :=
  (lineKeys (cartKeyedLines s u)).map fun k =>
    (k.1, k.2, groupTotal (cartKeyedLines s u) k)

/-- One report line per group, `• name (unit) — total` plus newline. -/
def renderLine (g : String × String × Nat) : String :=
  "• " ++ g.1 ++ " (" ++ g.2.1 ++ ") — " ++ toString g.2.2 ++ "\n"

/-- The fixed report header: title line and 30-dash separator line. -/
def headerLines : List String :=
  ["СПИСОК ПОКУПОК\n", "------------------------------\n"]

/-- RecipeViewSet.download_shopping_cart: raise EmptyCollection when the
cart yields no ingredient line, else render the header plus one line per
aggregated group; the view performs no write, so the store comes back
unchanged in both branches. -/
def download_shopping_cart (s : Store) (u : UserId) :
    Except Err (List String) × Store :=
  if cartLines s u = [] then (.error .EmptyCollection, s)
  else (.ok (headerLines ++ (shoppingListGroups s u).map renderLine), s)

/-- Concrete store of the C1 example: ingredient egg (pcs) and flour (cup);
recipe 1 uses 2 eggs, recipe 2 uses 3 eggs and 1 cup of flour; user 1 holds
recipes 1 and 2 in the shopping cart. -/
def exampleStore : Store :=
  { ingredients := [⟨1, "egg", "pcs"⟩, ⟨2, "flour", "cup"⟩]
    ingredient_lines := [⟨1, 1, 2⟩, ⟨2, 1, 3⟩, ⟨2, 2, 1⟩]
    shopping_cart := [⟨1, 1⟩, ⟨1, 2⟩]
    favorites := []
    subscriptions := []
    short_links := [] }

/-- constants.MAX_CODE_LENGTH. -/
def MAX_CODE_LENGTH : Nat := 8

/-- The URL-safe alphabet of secrets.token_urlsafe: the base64url characters. -/
def urlSafeAlphabet : List Char :=
  "ABCDEFGHIJKLMNOPQRSTUVWXYZabcdefghijklmnopqrstuvwxyz0123456789-_".data

/-- A short code exactly as generated by
`secrets.token_urlsafe(MAX_CODE_LENGTH)[:MAX_CODE_LENGTH]`: MAX_CODE_LENGTH
characters, all from the URL-safe alphabet. -/
def isValidCode (c : Code) : Prop :=
  c.length = MAX_CODE_LENGTH ∧ ∀ ch ∈ c.data, ch ∈ urlSafeAlphabet

instance : DecidablePred isValidCode := fun c =>
  decidable_of_iff
    (c.length = MAX_CODE_LENGTH ∧ ∀ ch ∈ c.data, ch ∈ urlSafeAlphabet) Iff.rfl

/-- views.py: `RecipeShortLink.objects.filter(short_code=code).exists()`. -/
def codeTaken (s : Store) (c : Code) : Bool :=
  s.short_links.any fun l => l.short_code == c

/-- The while-loop of get_short_link: draw stream i, stream (i+1), ... until
a code not present in the store appears; fuel bounds the attempt count so
the loop is total in the embedding. -/
def genFresh (s : Store) (stream : Nat → Code) : Nat → Nat → Option Code
  | 0, _ => none
  | fuel + 1, i =>
    if codeTaken s (stream i) then genFresh s stream fuel (i + 1)
    else some (stream i)

/-- RecipeViewSet.get_short_link: return the existing code unchanged when
one exists for the recipe, otherwise run the generation loop and persist the
new (recipe, code) pair; stream models the successive random draws. -/
def get_short_link (s : Store) (r : RecipeId) (stream : Nat → Code)
    (fuel : Nat) : Option (Code × Store) :=
  match s.short_links.find? fun l => l.recipe == r with
  | some l => some (l.short_code, s)
  | none =>
    match genFresh s stream fuel 0 with
    | some c => some (c, { s with short_links := s.short_links ++ [⟨r, c⟩] })
    | none => none

/-- Invariant of the short-link table: short codes are globally unique and
each recipe carries at most one code. -/
def ShortLinkInv (s : Store) : Prop :=
  (s.short_links.map RecipeShortLink.short_code).Nodup ∧
  (s.short_links.map RecipeShortLink.recipe).Nodup

/-- The k-character word whose base-64 digits over the URL-safe alphabet
spell n. -/
def natToChars : Nat → Nat → List Char
  | 0, _ => []
  | k + 1, n => urlSafeAlphabet.getD (n % 64) 'A' :: natToChars k (n / 64)

/-- The characters of a code read back as a base-64 numeral. -/
def charsToNat : List Char → Nat
  | [] => 0
  | ch :: rest => urlSafeAlphabet.indexOf ch + 64 * charsToNat rest

/-- A concrete fair draw sequence that enumerates every valid code. -/
def natStream (n : Nat) : Code := String.mk (natToChars MAX_CODE_LENGTH n)

/-- RecipeCreateSerializer.add_ingredients: one IngredientInRecipe row per
submitted (ingredient id, amount) item, all for the given recipe. -/
def add_ingredients (lines : List IngredientInRecipe) (r : RecipeId)
    (items : List (IngredientId × Nat)) : List IngredientInRecipe :=
  lines ++ items.map fun p => ⟨r, p.1, p.2⟩

/-- RecipeCreateSerializer.update restricted to the ingredient lines:
`recipe.ingredient_list.all().delete()` then add_ingredients with the
submitted items. -/
def recipe_update_lines (s : Store) (r : RecipeId)
    (items : List (IngredientId × Nat)) : Store :=
  let kept := s.ingredient_lines.filter fun l => !(l.recipe == r)
  { s with ingredient_lines := add_ingredients kept r items }

/-- Claim C5: cart/favorite removal fails with NotFound when the (user,
recipe) entry is absent, addition fails with AlreadyExists when it is
present, and every failing branch returns the store unchanged. -/
theorem c5_cart_favorite_errors (s : Store) (u : UserId) (r : RecipeId) :
    (inShoppingCart s u r = false →
      shoppingCartRemove s u r = (.error .NotFound, s)) ∧
    (inShoppingCart s u r = true →
      shoppingCartAdd s u r = (.error .AlreadyExists, s)) ∧
    (inFavorites s u r = false →
      favoriteRemove s u r = (.error .NotFound, s)) ∧
    (inFavorites s u r = true →
      favoriteAdd s u r = (.error .AlreadyExists, s)) := by
  refine ⟨fun h => ?_, fun h => ?_, fun h => ?_, fun h => ?_⟩ <;>
    simp [shoppingCartRemove, shoppingCartAdd, favoriteRemove, favoriteAdd, h]

/-- Witness for C5 at a concrete store: user 1 has recipe 7 in the cart and
nothing in favorites. -/
theorem c5_cart_favorite_errors_witness :
    shoppingCartRemove ⟨[], [], [⟨1, 7⟩], [], [], []⟩ 1 9
        = (.error .NotFound, ⟨[], [], [⟨1, 7⟩], [], [], []⟩) ∧
    shoppingCartAdd ⟨[], [], [⟨1, 7⟩], [], [], []⟩ 1 7
        = (.error .AlreadyExists, ⟨[], [], [⟨1, 7⟩], [], [], []⟩) ∧
    favoriteRemove ⟨[], [], [⟨1, 7⟩], [], [], []⟩ 1 7
        = (.error .NotFound, ⟨[], [], [⟨1, 7⟩], [], [], []⟩) :=
  ⟨(c5_cart_favorite_errors ⟨[], [], [⟨1, 7⟩], [], [], []⟩ 1 9).1 (by decide),
   ((c5_cart_favorite_errors ⟨[], [], [⟨1, 7⟩], [], [], []⟩ 1 7).2.1 (by decide)),
   ((c5_cart_favorite_errors ⟨[], [], [⟨1, 7⟩], [], [], []⟩ 1 7).2.2.1 (by decide))⟩

/-- Claim C8: a self-subscription request is rejected with SelfReference
regardless of the store, an existing (followee, follower) pair is rejected
with AlreadyExists, and no operation outcome ever adds a self-subscription
row. -/
theorem c8_subscription_errors (s : Store) (author u : UserId) :
    (u = author → subscribePost s author u = (.error .SelfReference, s)) ∧
    (u ≠ author → subscriptionExists s author u = true →
      subscribePost s author u = (.error .AlreadyExists, s)) ∧
    (NoSelfSubscription s →
      NoSelfSubscription (subscribePost s author u).2) := by
  refine ⟨fun h => ?_, fun h hex => ?_, fun hinv => ?_⟩
  · simp [subscribePost, h]
  · simp [subscribePost, h, hex]
  · intro e he
    by_cases h : u = author
    · exact hinv e (by simpa [subscribePost, h] using he)
    · by_cases hex : subscriptionExists s author u = true
      · exact hinv e (by simpa [subscribePost, h, hex] using he)
      · have he2 : e ∈ s.subscriptions ++ [(⟨author, u⟩ : Subscription)] := by
          simpa [subscribePost, h, hex] using he
        rcases List.mem_append.1 he2 with h1 | h1
        · exact hinv e h1
        · have : e = (⟨author, u⟩ : Subscription) := by simpa using h1
          subst this
          simpa using Ne.symm h

/-- Witness for C8: self-subscription of user 3 rejected, duplicate
subscription (followee 2, follower 3) rejected, and the invariant holds
after a fresh successful subscription. -/
theorem c8_subscription_errors_witness :
    subscribePost ⟨[], [], [], [], [⟨2, 3⟩], []⟩ 3 3
        = (.error .SelfReference, ⟨[], [], [], [], [⟨2, 3⟩], []⟩) ∧
    subscribePost ⟨[], [], [], [], [⟨2, 3⟩], []⟩ 2 3
        = (.error .AlreadyExists, ⟨[], [], [], [], [⟨2, 3⟩], []⟩) ∧
    NoSelfSubscription (subscribePost ⟨[], [], [], [], [⟨2, 3⟩], []⟩ 4 3).2 :=
  ⟨(c8_subscription_errors ⟨[], [], [], [], [⟨2, 3⟩], []⟩ 3 3).1 rfl,
   (c8_subscription_errors ⟨[], [], [], [], [⟨2, 3⟩], []⟩ 2 3).2.1
     (by decide) (by decide),
   (c8_subscription_errors ⟨[], [], [], [], [⟨2, 3⟩], []⟩ 4 3).2.2
     (by intro e he; fin_cases he; decide)⟩

/-- Counterexample to claim C6 as stated: the request with duplicated
ingredient id 1 and an empty tag list has an empty tag list, yet validation
fails with DuplicateEntry, not with EmptyCollection — the duplicate check on
ingredients runs before the emptiness check on tags. -/
theorem c6_validate_counterexample :
    (RecipeRequest.mk [(1, 2), (1, 3)] []).tags = [] ∧
    validate (RecipeRequest.mk [(1, 2), (1, 3)] []) = .error .DuplicateEntry ∧
    validate (RecipeRequest.mk [(1, 2), (1, 3)] []) ≠ .error .EmptyCollection := by
  refine ⟨rfl, by simp [validate], ?_⟩
  simp [validate]

/-- Claim C6 as amended: the checks run in source order (empty ingredient
list, duplicated ingredient id, empty tag list, duplicated tag), the first
failing check determines the error — EmptyCollection for an empty list,
DuplicateEntry for a repetition — and a request with non-empty,
duplicate-free lists passes all four checks. -/
theorem c6_validate_checks (req : RecipeRequest) :
    (req.ingredients = [] → validate req = .error .EmptyCollection) ∧
    (req.ingredients ≠ [] → ¬ (req.ingredients.map Prod.fst).Nodup →
      validate req = .error .DuplicateEntry) ∧
    (req.ingredients ≠ [] → (req.ingredients.map Prod.fst).Nodup →
      req.tags = [] → validate req = .error .EmptyCollection) ∧
    (req.ingredients ≠ [] → (req.ingredients.map Prod.fst).Nodup →
      req.tags ≠ [] → ¬ req.tags.Nodup →
      validate req = .error .DuplicateEntry) ∧
    (req.ingredients ≠ [] → (req.ingredients.map Prod.fst).Nodup →
      req.tags ≠ [] → req.tags.Nodup → validate req = .ok req) := by
  refine ⟨fun h1 => ?_, fun h1 h2 => ?_, fun h1 h2 h3 => ?_,
    fun h1 h2 h3 h4 => ?_, fun h1 h2 h3 h4 => ?_⟩
  · simp [validate, h1]
  · simp [validate, h1, h2]
  · simp [validate, h1, h2, h3]
  · simp [validate, h1, h2, h3, h4]
  · simp [validate, h1, h2, h3, h4]

/-- Witness for C6 (amended): a concrete request passes all checks, and one
with an empty ingredient list fails with EmptyCollection. -/
theorem c6_validate_checks_witness :
    validate (RecipeRequest.mk [(1, 2), (3, 4)] [5]) =
      .ok (RecipeRequest.mk [(1, 2), (3, 4)] [5]) ∧
    validate (RecipeRequest.mk [] [5]) = .error .EmptyCollection :=
  ⟨(c6_validate_checks (RecipeRequest.mk [(1, 2), (3, 4)] [5])).2.2.2.2
      (by decide) (by decide) (by decide) (by decide),
   (c6_validate_checks (RecipeRequest.mk [] [5])).1 rfl⟩

/-- Claim C7: a request referencing at least one ingredient id absent from
the ingredient store fails with UnknownReference, and the reported list
holds exactly the referenced ids that are missing from the store. -/
theorem c7_unknown_reference (ings : List Ingredient) (req : RecipeRequest)
    (h : ∃ i ∈ req.ingredients.map Prod.fst, ∀ g ∈ ings, g.id ≠ i) :
    ∃ missing, run_validation ings req = .error (.UnknownReference missing) ∧
      missing ≠ [] ∧
      ∀ j, j ∈ missing ↔
        (j ∈ req.ingredients.map Prod.fst ∧ ∀ g ∈ ings, g.id ≠ j) := by
  obtain ⟨i, hi, hmiss⟩ := h
  refine ⟨(req.ingredients.map Prod.fst).filter
      (fun i => !(ings.any fun g => g.id == i)), ?_, ?_, ?_⟩
  · have hne : (req.ingredients.map Prod.fst).filter
        (fun i => !(ings.any fun g => g.id == i)) ≠ [] := by
      intro hempty
      have : i ∈ (req.ingredients.map Prod.fst).filter
          (fun i => !(ings.any fun g => g.id == i)) := by
        rw [List.mem_filter]
        refine ⟨hi, ?_⟩
        simp only [Bool.not_eq_true', List.any_eq_false]
        intro g hg
        simpa using hmiss g hg
      rw [hempty] at this
      exact absurd this (List.not_mem_nil i)
    simp only [run_validation, resolveIngredientIds]
    rw [if_neg hne]
  · intro hempty
    have : i ∈ (req.ingredients.map Prod.fst).filter
        (fun i => !(ings.any fun g => g.id == i)) := by
      rw [List.mem_filter]
      refine ⟨hi, ?_⟩
      simp only [Bool.not_eq_true', List.any_eq_false]
      intro g hg
      simpa using hmiss g hg
    rw [hempty] at this
    exact absurd this (List.not_mem_nil i)
  · intro j
    rw [List.mem_filter]
    constructor
    · rintro ⟨hj, hb⟩
      refine ⟨hj, ?_⟩
      intro g hg
      simp only [Bool.not_eq_true', List.any_eq_false] at hb
      simpa using hb g hg
    · rintro ⟨hj, hb⟩
      refine ⟨hj, ?_⟩
      simp only [Bool.not_eq_true', List.any_eq_false]
      intro g hg
      simpa using hb g hg

/-- Witness for C7: with only ingredient 1 stored, a request referencing
ids 1 and 5 fails with UnknownReference listing exactly the missing id 5. -/
theorem c7_unknown_reference_witness :
    ∃ missing,
      run_validation [⟨1, "egg", "pcs"⟩] (RecipeRequest.mk [(1, 2), (5, 1)] [1])
        = .error (.UnknownReference missing) ∧
      missing ≠ [] ∧
      ∀ j, j ∈ missing ↔
        (j ∈ (RecipeRequest.mk [(1, 2), (5, 1)] [1]).ingredients.map Prod.fst ∧
          ∀ g ∈ [(⟨1, "egg", "pcs"⟩ : Ingredient)], g.id ≠ j) :=
  c7_unknown_reference [⟨1, "egg", "pcs"⟩] (RecipeRequest.mk [(1, 2), (5, 1)] [1])
    ⟨5, by decide, by decide⟩

/-- A key is listed in lineKeys exactly when some line carries it. -/
theorem mem_lineKeys {k : String × String} :
    ∀ ls : List (String × String × Nat),
      k ∈ lineKeys ls ↔ ∃ x ∈ ls, lineKey x = k := by
  intro ls
  induction ls with
  | nil => simp [lineKeys]
  | cons x xs ih =>
    simp only [lineKeys, List.mem_cons, List.mem_filter, ih]
    constructor
    · rintro (rfl | ⟨⟨y, hy, hk⟩, _⟩)
      · exact ⟨x, Or.inl rfl, rfl⟩
      · exact ⟨y, Or.inr hy, hk⟩
    · rintro ⟨y, hy, hk⟩
      rcases hy with rfl | hy
      · exact Or.inl hk.symm
      · by_cases hkey : k = lineKey x
        · exact Or.inl hkey
        · exact Or.inr ⟨⟨y, hy, hk⟩, by simpa using hkey⟩

/-- The distinct keys carry no duplicate. -/
theorem lineKeys_nodup : ∀ ls : List (String × String × Nat),
    (lineKeys ls).Nodup := by
  intro ls
  induction ls with
  | nil => simp [lineKeys]
  | cons x xs ih =>
    refine List.Nodup.cons ?_ (ih.filter _)
    intro hmem
    rcases List.mem_filter.1 hmem with ⟨_, hne⟩
    simp at hne

/-- The group keys are the distinct line keys. -/
theorem shoppingListGroups_map_key (s : Store) (u : UserId) :
    (shoppingListGroups s u).map lineKey = lineKeys (cartKeyedLines s u) := by
  simp only [shoppingListGroups, List.map_map]
  have : (lineKey ∘ fun k : String × String =>
      (k.1, k.2, groupTotal (cartKeyedLines s u) k)) = id := by
    funext k
    simp [lineKey]
  rw [this, List.map_id]

/-- Claim C1: the shopping-list download aggregates the cart lines by the
(ingredient name, measurement unit) pair — the keys of the output are
exactly the keys occurring among the user's cart lines, without duplicate,
each total is the sum of the matching line amounts, the success output is
the fixed header followed by one rendered line per group, and on the
concrete example cart (R1: 2 eggs; R2: 3 eggs, 1 cup flour) the output is
exactly the egg-5 and flour-1 lines after the header. -/
theorem c1_shopping_list_aggregation (s : Store) (u : UserId) :
    ((shoppingListGroups s u).map lineKey).Nodup ∧
    (∀ nm un, (∃ t, (nm, un, t) ∈ shoppingListGroups s u) ↔
      ∃ x ∈ cartKeyedLines s u, lineKey x = (nm, un)) ∧
    (∀ g ∈ shoppingListGroups s u,
      g.2.2 = (((cartKeyedLines s u).filter fun x =>
        decide (lineKey x = lineKey g)).map fun x => x.2.2).sum) ∧
    (cartLines s u ≠ [] →
      download_shopping_cart s u =
        (.ok (headerLines ++ (shoppingListGroups s u).map renderLine), s)) ∧
    download_shopping_cart exampleStore 1 =
      (.ok ["СПИСОК ПОКУПОК\n", "------------------------------\n",
            "• egg (pcs) — 5\n", "• flour (cup) — 1\n"], exampleStore) := by
  refine ⟨?_, ?_, ?_, ?_, ?_⟩
  · rw [shoppingListGroups_map_key]
    exact lineKeys_nodup _
  · intro nm un
    constructor
    · rintro ⟨t, ht⟩
      simp only [shoppingListGroups, List.mem_map] at ht
      obtain ⟨k, hk, hf⟩ := ht
      obtain ⟨a, b⟩ := k
      simp only [Prod.mk.injEq] at hf
      obtain ⟨rfl, rfl, -⟩ := hf
      exact (mem_lineKeys _).1 hk
    · intro hx
      refine ⟨groupTotal (cartKeyedLines s u) (nm, un), ?_⟩
      simp only [shoppingListGroups, List.mem_map]
      exact ⟨(nm, un), (mem_lineKeys _).2 hx, rfl⟩
  · intro g hg
    simp only [shoppingListGroups, List.mem_map] at hg
    obtain ⟨k, hk, rfl⟩ := hg
    simp [lineKey, groupTotal]
  · intro h
    simp [download_shopping_cart, h]
  · rfl

/-- Witness for C1 at the example store: the download succeeds and its
output is exactly the header plus the two aggregated lines. -/
theorem c1_shopping_list_aggregation_witness :
    download_shopping_cart exampleStore 1 =
      (.ok ["СПИСОК ПОКУПОК\n", "------------------------------\n",
            "• egg (pcs) — 5\n", "• flour (cup) — 1\n"], exampleStore) :=
  (c1_shopping_list_aggregation exampleStore 1).2.2.2.2

/-- Claim C9: when the user's cart yields no ingredient line the download
fails with EmptyCollection, and in every case (success or failure) the
operation returns the store unchanged. -/
theorem c9_empty_cart_download (s : Store) (u : UserId) :
    (cartLines s u = [] →
      download_shopping_cart s u = (.error .EmptyCollection, s)) ∧
    (download_shopping_cart s u).2 = s := by
  constructor
  · intro h
    simp [download_shopping_cart, h]
  · by_cases h : cartLines s u = [] <;> simp [download_shopping_cart, h]

/-- Witness for C9: download on the empty store fails with EmptyCollection,
and the successful download on the example store leaves it unchanged. -/
theorem c9_empty_cart_download_witness :
    download_shopping_cart ⟨[], [], [], [], [], []⟩ 1 =
      (.error .EmptyCollection, ⟨[], [], [], [], [], []⟩) ∧
    (download_shopping_cart exampleStore 1).2 = exampleStore :=
  ⟨(c9_empty_cart_download ⟨[], [], [], [], [], []⟩ 1).1 rfl,
   (c9_empty_cart_download exampleStore 1).2⟩

/-- Any code returned by the generation loop is fresh and one of the draws. -/
theorem genFresh_sound (s : Store) (stream : Nat → Code) :
    ∀ fuel i c, genFresh s stream fuel i = some c →
      codeTaken s c = false ∧ ∃ j, c = stream j := by
  intro fuel
  induction fuel with
  | zero =>
    intro i c h
    simp [genFresh] at h
  | succ fuel ih =>
    intro i c h
    by_cases ht : codeTaken s (stream i) = true
    · rw [genFresh, if_pos ht] at h
      exact ih (i + 1) c h
    · rw [genFresh, if_neg ht] at h
      obtain rfl := Option.some.inj h
      exact ⟨by simpa using ht, i, rfl⟩

/-- If some draw is fresh, enough fuel makes the loop return a code. -/
theorem genFresh_complete (s : Store) (stream : Nat → Code) :
    ∀ k i, codeTaken s (stream (i + k)) = false →
      ∃ c, genFresh s stream (k + 1) i = some c := by
  intro k
  induction k with
  | zero =>
    intro i h
    rw [Nat.add_zero] at h
    exact ⟨stream i, by simp [genFresh, h]⟩
  | succ k ih =>
    intro i h
    cases hb : codeTaken s (stream i) with
    | false => exact ⟨stream i, by simp [genFresh, hb]⟩
    | true =>
      obtain ⟨c, hc⟩ := ih (i + 1)
        (by rw [Nat.add_assoc, Nat.add_comm 1 k]; exact h)
      exact ⟨c, by rw [genFresh, if_pos hb]; exact hc⟩

/-- Appending a new element keeps a duplicate-free list duplicate-free. -/
theorem nodup_append_singleton {α : Type} {l : List α} {a : α}
    (h : l.Nodup) (ha : a ∉ l) : (l ++ [a]).Nodup := by
  rw [List.nodup_append]
  refine ⟨h, List.nodup_singleton a, fun x hx hmem => ?_⟩
  rw [List.mem_singleton] at hmem
  subst hmem
  exact ha hx

/-- Claim C2: when a short link already exists for the recipe the service
returns its code with the store unchanged, and a second request after any
successful request returns the same code and leaves the store as it was. -/
theorem c2_short_link_idempotent (s : Store) (r : RecipeId)
    (stream stream2 : Nat → Code) (fuel fuel2 : Nat) :
    (∀ l, (s.short_links.find? fun x => x.recipe == r) = some l →
      get_short_link s r stream fuel = some (l.short_code, s)) ∧
    (∀ c s1, get_short_link s r stream fuel = some (c, s1) →
      get_short_link s1 r stream2 fuel2 = some (c, s1)) := by
  constructor
  · intro l hl
    simp [get_short_link, hl]
  · intro c s1 h
    rcases hfind : s.short_links.find? fun x => x.recipe == r with - | l
    · rw [get_short_link, hfind] at h
      rcases hgen : genFresh s stream fuel 0 with - | c0
      · rw [hgen] at h
        simp at h
      · rw [hgen] at h
        obtain ⟨rfl, rfl⟩ : c0 = c ∧
            { s with short_links := s.short_links ++ [⟨r, c0⟩] } = s1 := by
          simpa using h
        rw [get_short_link]
        have hfind2 : ({ s with short_links := s.short_links ++ [⟨r, c0⟩] } :
            Store).short_links.find? (fun x => x.recipe == r) = some ⟨r, c0⟩ := by
          simp [List.find?_append, hfind]
        rw [hfind2]
    · rw [get_short_link, hfind] at h
      obtain ⟨rfl, rfl⟩ : l.short_code = c ∧ s = s1 := by simpa using h
      rw [get_short_link, hfind]

/-- Witness for C2: requesting the existing link of recipe 1 returns its
code unchanged, and re-requesting recipe 2 right after its link was created
returns the created code with the store unchanged. -/
theorem c2_short_link_idempotent_witness :
    get_short_link ⟨[], [], [], [], [], [⟨1, "AAAAAAAA"⟩]⟩ 1
        (fun _ => "BBBBBBBB") 1 =
      some ("AAAAAAAA", ⟨[], [], [], [], [], [⟨1, "AAAAAAAA"⟩]⟩) ∧
    get_short_link ⟨[], [], [], [], [], [⟨1, "AAAAAAAA"⟩, ⟨2, "BBBBBBBB"⟩]⟩ 2
        (fun _ => "CCCCCCCC") 1 =
      some ("BBBBBBBB",
        ⟨[], [], [], [], [], [⟨1, "AAAAAAAA"⟩, ⟨2, "BBBBBBBB"⟩]⟩) :=
  ⟨(c2_short_link_idempotent ⟨[], [], [], [], [], [⟨1, "AAAAAAAA"⟩]⟩ 1
      (fun _ => "BBBBBBBB") (fun _ => "BBBBBBBB") 1 1).1 ⟨1, "AAAAAAAA"⟩ rfl,
   (c2_short_link_idempotent ⟨[], [], [], [], [], [⟨1, "AAAAAAAA"⟩]⟩ 2
      (fun _ => "BBBBBBBB") (fun _ => "CCCCCCCC") 1 1).2 "BBBBBBBB"
      ⟨[], [], [], [], [], [⟨1, "AAAAAAAA"⟩, ⟨2, "BBBBBBBB"⟩]⟩ rfl⟩

/-- Claim C3: starting from a store whose short-link table has globally
unique codes and at most one code per recipe, every operation — short-link
get-or-create, cart and favorite toggles, subscription creation, recipe
update — preserves this; unique codes also mean no code maps to two
different recipes. -/
theorem c3_short_link_invariant (s : Store) (hinv : ShortLinkInv s) :
    (∀ r stream fuel c s1, get_short_link s r stream fuel = some (c, s1) →
      ShortLinkInv s1) ∧
    (∀ u r, ShortLinkInv (shoppingCartAdd s u r).2 ∧
      ShortLinkInv (shoppingCartRemove s u r).2 ∧
      ShortLinkInv (favoriteAdd s u r).2 ∧
      ShortLinkInv (favoriteRemove s u r).2) ∧
    (∀ a u, ShortLinkInv (subscribePost s a u).2) ∧
    (∀ r items, ShortLinkInv (recipe_update_lines s r items)) ∧
    (∀ l1 ∈ s.short_links, ∀ l2 ∈ s.short_links,
      l1.short_code = l2.short_code → l1.recipe = l2.recipe) := by
  refine ⟨?_, ?_, ?_, ?_, ?_⟩
  · intro r stream fuel c s1 h
    rcases hfind : s.short_links.find? fun x => x.recipe == r with - | l
    · rw [get_short_link, hfind] at h
      rcases hgen : genFresh s stream fuel 0 with - | c0
      · rw [hgen] at h
        simp at h
      · rw [hgen] at h
        obtain ⟨rfl, rfl⟩ : c0 = c ∧
            { s with short_links := s.short_links ++ [⟨r, c0⟩] } = s1 := by
          simpa using h
        obtain ⟨hfresh, -⟩ := genFresh_sound s stream fuel 0 c0 hgen
        constructor
        · rw [show ({ s with short_links := s.short_links ++ [⟨r, c0⟩] } :
              Store).short_links = s.short_links ++ [⟨r, c0⟩] from rfl,
            List.map_append]
          refine nodup_append_singleton hinv.1 ?_
          intro hmem
          rw [List.mem_map] at hmem
          obtain ⟨l, hl, hcode⟩ := hmem
          rw [codeTaken, List.any_eq_false] at hfresh
          exact hfresh l hl (by simp [hcode])
        · rw [show ({ s with short_links := s.short_links ++ [⟨r, c0⟩] } :
              Store).short_links = s.short_links ++ [⟨r, c0⟩] from rfl,
            List.map_append]
          refine nodup_append_singleton hinv.2 ?_
          intro hmem
          rw [List.mem_map] at hmem
          obtain ⟨l, hl, hrec⟩ := hmem
          rw [List.find?_eq_none] at hfind
          exact hfind l hl (by simp [hrec])
    · rw [get_short_link, hfind] at h
      obtain ⟨-, rfl⟩ : l.short_code = c ∧ s = s1 := by simpa using h
      exact hinv
  · intro u r
    refine ⟨?_, ?_, ?_, ?_⟩
    · by_cases h : inShoppingCart s u r = true <;>
        simpa [shoppingCartAdd, h, ShortLinkInv] using hinv
    · by_cases h : inShoppingCart s u r = true <;>
        simpa [shoppingCartRemove, h, ShortLinkInv] using hinv
    · by_cases h : inFavorites s u r = true <;>
        simpa [favoriteAdd, h, ShortLinkInv] using hinv
    · by_cases h : inFavorites s u r = true <;>
        simpa [favoriteRemove, h, ShortLinkInv] using hinv
  · intro a u
    by_cases h1 : u = a
    · simpa [subscribePost, h1, ShortLinkInv] using hinv
    · by_cases h2 : subscriptionExists s a u = true <;>
        simpa [subscribePost, h1, h2, ShortLinkInv] using hinv
  · intro r items
    simpa [recipe_update_lines, ShortLinkInv] using hinv
  · intro l1 h1 l2 h2 hc
    exact congrArg RecipeShortLink.recipe
      (List.inj_on_of_nodup_map hinv.1 h1 h2 hc)

/-- Witness for C3: the invariant holds on a one-link store and still holds
on the store produced by generating a link for recipe 2 there. -/
theorem c3_short_link_invariant_witness :
    ShortLinkInv ⟨[], [], [], [], [], [⟨1, "AAAAAAAA"⟩, ⟨2, "BBBBBBBB"⟩]⟩ :=
  (c3_short_link_invariant ⟨[], [], [], [], [], [⟨1, "AAAAAAAA"⟩]⟩
      (by constructor <;> simp)).1
    2 (fun _ => "BBBBBBBB") 1 "BBBBBBBB"
    ⟨[], [], [], [], [], [⟨1, "AAAAAAAA"⟩, ⟨2, "BBBBBBBB"⟩]⟩ rfl

/-- The alphabet has the 64 base64url characters. -/
theorem urlSafeAlphabet_length : urlSafeAlphabet.length = 64 := rfl

/-- natToChars always produces a word of the requested length. -/
theorem natToChars_length : ∀ k n, (natToChars k n).length = k := by
  intro k
  induction k with
  | zero => intro n; rfl
  | succ k ih =>
    intro n
    simp [natToChars, ih]

/-- Every character of a natToChars word is in the alphabet. -/
theorem natToChars_mem :
    ∀ k n, ∀ ch ∈ natToChars k n, ch ∈ urlSafeAlphabet := by
  intro k
  induction k with
  | zero =>
    intro n ch h
    simp [natToChars] at h
  | succ k ih =>
    intro n ch h
    rw [natToChars] at h
    rcases List.mem_cons.1 h with h | h
    · subst h
      have hlt : n % 64 < urlSafeAlphabet.length := by
        rw [urlSafeAlphabet_length]
        exact Nat.mod_lt n (by decide)
      rw [List.getD_eq_getElem _ _ hlt]
      exact List.getElem_mem hlt
    · exact ih (n / 64) ch h

/-- Reading a word of alphabet characters back as a numeral and re-rendering
it gives the word back. -/
theorem natToChars_charsToNat :
    ∀ cs : List Char, (∀ ch ∈ cs, ch ∈ urlSafeAlphabet) →
      natToChars cs.length (charsToNat cs) = cs := by
  intro cs
  induction cs with
  | nil => intro _; rfl
  | cons ch rest ih =>
    intro hmem
    have hch : ch ∈ urlSafeAlphabet := hmem ch (by simp)
    have hidx : urlSafeAlphabet.indexOf ch < 64 := by
      rw [show (64 : Nat) = urlSafeAlphabet.length from rfl]
      exact List.indexOf_lt_length.2 hch
    have hmod : (urlSafeAlphabet.indexOf ch + 64 * charsToNat rest) % 64 =
        urlSafeAlphabet.indexOf ch := by
      rw [Nat.add_mul_mod_self_left]
      exact Nat.mod_eq_of_lt hidx
    have hdiv : (urlSafeAlphabet.indexOf ch + 64 * charsToNat rest) / 64 =
        charsToNat rest := by
      rw [Nat.add_mul_div_left _ _ (by decide : (0 : Nat) < 64)]
      rw [Nat.div_eq_of_lt hidx, Nat.zero_add]
    simp only [charsToNat, List.length_cons, natToChars, hmod, hdiv]
    rw [ih fun x hx => hmem x (by simp [hx])]
    congr 1
    rw [List.getD_eq_getElem _ _
      (by rw [urlSafeAlphabet_length]; exact hidx)]
    exact List.getElem_indexOf (by rw [urlSafeAlphabet_length]; exact hidx)

/-- Every draw of the concrete sequence is a valid 8-character code. -/
theorem natStream_valid (n : Nat) : isValidCode (natStream n) :=
  ⟨by simp only [natStream, String.length, natToChars_length],
   fun ch hch => natToChars_mem MAX_CODE_LENGTH n ch hch⟩

/-- The concrete sequence enumerates every valid code. -/
theorem natStream_surj (c : Code) (h : isValidCode c) :
    natStream (charsToNat c.data) = c := by
  obtain ⟨hlen, hmem⟩ := h
  have hdata : c.data.length = MAX_CODE_LENGTH := hlen
  rw [natStream, show MAX_CODE_LENGTH = c.data.length from hdata.symm,
    natToChars_charsToNat c.data hmem]

/-- Claim C4: when a recipe has no short link and the draw sequence is a
fair enumeration of the valid codes (fixed length 8, URL-safe alphabet), the
retry loop terminates as soon as at least one valid code is unused in the
store, and the service persists exactly one new (recipe, code) pair whose
code is fresh and valid. -/
theorem c4_generation_terminates (s : Store) (r : RecipeId)
    (stream : Nat → Code)
    (hvalid : ∀ n, isValidCode (stream n))
    (hfair : ∀ c, isValidCode c → ∃ n, stream n = c)
    (hfree : ∃ c, isValidCode c ∧ codeTaken s c = false)
    (hnew : (s.short_links.find? fun l => l.recipe == r) = none) :
    ∃ fuel c, get_short_link s r stream fuel =
        some (c, { s with short_links := s.short_links ++ [⟨r, c⟩] }) ∧
      isValidCode c ∧ codeTaken s c = false := by
  obtain ⟨c0, hc0v, hc0f⟩ := hfree
  obtain ⟨n, hn⟩ := hfair c0 hc0v
  have hfree2 : codeTaken s (stream (0 + n)) = false := by
    rw [Nat.zero_add, hn]
    exact hc0f
  obtain ⟨c, hc⟩ := genFresh_complete s stream n 0 hfree2
  obtain ⟨hfresh, j, hj⟩ := genFresh_sound s stream (n + 1) 0 c hc
  refine ⟨n + 1, c, ?_, hj ▸ hvalid j, hfresh⟩
  rw [get_short_link, hnew, hc]

/-- Witness for C4: with the fair enumeration sequence, a store holding only
the code AAAAAAAA for recipe 1 lets the loop terminate and persist exactly
one fresh valid code for recipe 2. -/
theorem c4_generation_terminates_witness :
    ∃ fuel c,
      get_short_link ⟨[], [], [], [], [], [⟨1, "AAAAAAAA"⟩]⟩ 2 natStream fuel =
        some (c, { (⟨[], [], [], [], [], [⟨1, "AAAAAAAA"⟩]⟩ : Store) with
          short_links := [⟨1, "AAAAAAAA"⟩] ++ [⟨2, c⟩] }) ∧
      isValidCode c ∧
      codeTaken ⟨[], [], [], [], [], [⟨1, "AAAAAAAA"⟩]⟩ c = false :=
  c4_generation_terminates ⟨[], [], [], [], [], [⟨1, "AAAAAAAA"⟩]⟩ 2 natStream
    natStream_valid
    (fun c hc => ⟨charsToNat c.data, natStream_surj c hc⟩)
    ⟨"AAAAAAAB", by decide, by decide⟩
    rfl

/-- Claim C10: a recipe update replaces the recipe's ingredient lines
wholesale — afterwards the lines of the updated recipe are exactly the
submitted items, and the lines of every other recipe are unchanged. -/
theorem c10_update_replaces_lines (s : Store) (r : RecipeId)
    (items : List (IngredientId × Nat)) :
    ((recipe_update_lines s r items).ingredient_lines.filter
        fun l => l.recipe == r) =
      (items.map fun p => (⟨r, p.1, p.2⟩ : IngredientInRecipe)) ∧
    ∀ r2, r2 ≠ r →
      ((recipe_update_lines s r items).ingredient_lines.filter
          fun l => l.recipe == r2) =
        s.ingredient_lines.filter fun l => l.recipe == r2 := by
  constructor
  · simp only [recipe_update_lines, add_ingredients, List.filter_append,
      List.filter_filter]
    have h1 : (s.ingredient_lines.filter
        fun a => (a.recipe == r) && !(a.recipe == r)) = [] := by
      rw [List.filter_eq_nil_iff]
      intro a _
      simp
    have h2 : ((items.map fun p => (⟨r, p.1, p.2⟩ : IngredientInRecipe)).filter
        fun l => l.recipe == r) = items.map fun p => ⟨r, p.1, p.2⟩ := by
      rw [List.filter_eq_self]
      intro a ha
      rw [List.mem_map] at ha
      obtain ⟨p, -, rfl⟩ := ha
      simp
    rw [h1, h2, List.nil_append]
  · intro r2 hne
    simp only [recipe_update_lines, add_ingredients, List.filter_append,
      List.filter_filter]
    have h2 : ((items.map fun p => (⟨r, p.1, p.2⟩ : IngredientInRecipe)).filter
        fun l => l.recipe == r2) = [] := by
      rw [List.filter_eq_nil_iff]
      intro a ha
      rw [List.mem_map] at ha
      obtain ⟨p, -, rfl⟩ := ha
      simp [Ne.symm hne]
    rw [h2, List.append_nil]
    apply List.filter_congr
    intro x _
    by_cases hx : x.recipe = r2
    · simp [hx, hne]
    · simp [hx]

/-- Witness for C10: updating recipe 2 of the example store to a single
4-cup flour line leaves exactly that line for recipe 2 and leaves recipe 1's
lines untouched. -/
theorem c10_update_replaces_lines_witness :
    ((recipe_update_lines exampleStore 2 [(2, 4)]).ingredient_lines.filter
        fun l => l.recipe == 2) = [⟨2, 2, 4⟩] ∧
    ((recipe_update_lines exampleStore 2 [(2, 4)]).ingredient_lines.filter
        fun l => l.recipe == 1) =
      (exampleStore.ingredient_lines.filter fun l => l.recipe == 1) :=
  ⟨(c10_update_replaces_lines exampleStore 2 [(2, 4)]).1,
   (c10_update_replaces_lines exampleStore 2 [(2, 4)]).2 1 (by decide)⟩

end Foodgram
